import Mathlib

/-!
Shallow embedding of the two-tower recommender repository
(two-tower.js, app.js, and the two unnamed model files) and proofs of the
frozen claims about it.  Scores and parameters are modelled as exact
rationals (or reals where `exp`/`log` are involved); tensors become
`Fin`-indexed functions or lists.
-/

namespace RecSys

/-! ### Retrieval (TwoTowerModel.getRecommendations, two-tower.js 209-258)

Each catalog entry carries an item identifier and the score the model
computed for it.  The JS code filters out rated items
(`!ratedItems.has(item.itemId)`), sorts by `b.score - a.score`
(descending) and slices the first `topK` elements. -/

structure ScoredItem where
  itemId : Nat
  score : ℚ
deriving DecidableEq

/-- Descending-score order used by the sort comparator `(a, b) => b.score - a.score`. -/
def scoreDesc (a b : ScoredItem) : Prop := b.score ≤ a.score

instance : DecidableRel scoreDesc := fun a b => inferInstanceAs (Decidable (b.score ≤ a.score))

instance : IsTotal ScoredItem scoreDesc := ⟨fun a b => le_total b.score a.score⟩

instance : IsTrans ScoredItem scoreDesc := ⟨fun _ _ _ h1 h2 => le_trans h2 h1⟩

/-- Embeds `getRecommendations`: filter out rated items, sort by descending
score, take the first `topK`.  The JS engine sort is replaced by insertion
sort, which produces a sorted permutation just as the source comparator does
(the tie order is unspecified in both). -/
def getRecommendations (scoredItems : List ScoredItem) (ratedItems : List Nat)
    (topK : Nat) : List ScoredItem :=
  ((scoredItems.filter fun s => !(decide (s.itemId ∈ ratedItems))).insertionSort
    scoreDesc).take topK

/-! ### Scoring (TwoTowerModel.score, two-tower.js 87-90)

The source computes `tf.sum(tf.mul(userEmbeddings, itemEmbeddings), -1)`:
a raw dot product with no L2 normalization. -/

/-- Embeds `TwoTowerModel.score`: elementwise product then sum, with no
normalization of either input. -/
def score (userEmbeddings itemEmbeddings : List ℚ) : ℚ :=
  (List.zipWith (· * ·) userEmbeddings itemEmbeddings).sum

/-! ### Batching (train loops, two-tower.js 134-146 and part_001 27-35)

Both training loops step `i` by `batchSize` and slice
`[i, i + batchSize)`; the final slice may be shorter and is still
processed.  A `batchSize` of zero would loop forever in the source, so the
embedding returns `[]` in that (never exercised) case and the theorems
assume `1 ≤ B`. -/

def batches (B : Nat) : List α → List (List α)
  | [] => []
  | x :: xs =>
    if _hB : B = 0 then []
    else (x :: xs).take B :: batches B ((x :: xs).drop B)
termination_by l => l.length
decreasing_by
  simp only [List.length_drop, List.length_cons]
  omega

/-! ### Negative sampling (TraditionalTwoTowerModel.trainBatch, part_001 61-68)

The source draws `Math.floor(Math.random() * numItems)` repeatedly
`while (negativeItemIdx === positiveItemIdx)`.  The random stream is
modelled as a list of draws; the loop returns the first draw that differs
from the positive item of the current pair (and only from it). -/

def sampleNegativeItem (draws : List Nat) (positiveItemIdx : Nat) : Option Nat :=
  draws.find? fun d => d != positiveItemIdx

/-! ### Interaction indexing (TwoTowerModel.train, two-tower.js 117-125)

`train` maps every raw interaction through the user and item index maps
(`Map.get`, which yields `undefined` when absent, modelled as `Option`) and
filters out any record where either lookup came back undefined. -/

structure Interaction where
  userId : Nat
  itemId : Nat
  rating : ℚ
deriving DecidableEq

structure IndexedInteraction where
  userIndex : Option Nat
  itemIndex : Option Nat
  rating : ℚ
deriving DecidableEq

def indexInteractions (userIndexMap itemIndexMap : Nat → Option Nat)
    (interactions : List Interaction) : List IndexedInteraction :=
  (interactions.map fun it =>
      { userIndex := userIndexMap it.userId
        itemIndex := itemIndexMap it.itemId
        rating := it.rating }).filter
    fun it => it.userIndex.isSome && it.itemIndex.isSome

/-! ### Item tower of TwoTowerModel (two-tower.js 69-85)

`itemForward(itemIndices, genreFeatures = null)` runs the genre MLP and
adds the embedding rows only when `config.useMLP && genreFeatures` holds;
otherwise it gathers rows from the item embedding table.  The MLP is one
dense hidden layer with ReLU followed by a linear layer. -/

/-- Embeds the two dense layers applied to a 19-wide genre feature vector:
hidden layer with ReLU (width `H`), then a linear layer back to width `D`. -/
def mlpForward {D H : Nat} (Wh : Fin 19 → Fin H → ℚ) (bh : Fin H → ℚ)
    (Wo : Fin H → Fin D → ℚ) (bo : Fin D → ℚ) (g : Fin 19 → ℚ) : Fin D → ℚ :=
  fun j => (∑ k, max 0 ((∑ i, g i * Wh i k) + bh k) * Wo k j) + bo j

/-- Embeds `TwoTowerModel.itemForward`.  `genreFeatures` is `none` when the
caller omits the argument, as `getItemEmbeddings` and `getRecommendations`
do at inference time. -/
def itemForward {D H : Nat} (useMLP : Bool) (Wh : Fin 19 → Fin H → ℚ)
    (bh : Fin H → ℚ) (Wo : Fin H → Fin D → ℚ) (bo : Fin D → ℚ)
    (itemEmbedding : Nat → Fin D → ℚ) (itemIndices : List Nat)
    (genreFeatures : Option (List (Fin 19 → ℚ))) : List (Fin D → ℚ) :=
  match useMLP, genreFeatures with
  | true, some gf =>
    List.zipWith (fun g i j => mlpForward Wh bh Wo bo g j + itemEmbedding i j)
      gf itemIndices
  | _, _ => itemIndices.map itemEmbedding

/-- Embeds `TwoTowerModel.getItemEmbeddings`, which calls
`this.itemForward(itemTensor)` with the genre argument omitted. -/
def getItemEmbeddings {D H : Nat} (useMLP : Bool) (Wh : Fin 19 → Fin H → ℚ)
    (bh : Fin H → ℚ) (Wo : Fin H → Fin D → ℚ) (bo : Fin D → ℚ)
    (itemEmbedding : Nat → Fin D → ℚ) (itemIndices : List Nat) : List (Fin D → ℚ) :=
  itemForward useMLP Wh bh Wo bo itemEmbedding itemIndices none

/-- Embeds the per-item scores `getRecommendations` computes: the user
embedding dotted against each embedding returned by `itemForward` called
without genre features. -/
def recommendationScores {D H : Nat} (useMLP : Bool) (Wh : Fin 19 → Fin H → ℚ)
    (bh : Fin H → ℚ) (Wo : Fin H → Fin D → ℚ) (bo : Fin D → ℚ)
    (itemEmbedding : Nat → Fin D → ℚ) (userEmb : Fin D → ℚ)
    (itemIndices : List Nat) : List ℚ :=
  (itemForward useMLP Wh bh Wo bo itemEmbedding itemIndices none).map
    fun v => ∑ j, userEmb j * v j

/-! ### Genre feature lookup (app.js trainModel, 203-209) and the deep item
tower (DeepLearningTwoTowerModel, part_001 185-232)

`app.js` builds `itemFeatures[i]` as `item ? item.genres : Array(19).fill(0)`
where `item = this.items.get(this.indexToItemId.get(i))`; a missing lookup
therefore yields the zero vector of length 19.  The deep item tower
concatenates the base embedding row with the genre vector and runs the
two-layer MLP; `getItemEmbeddings` returns this value (before any
normalization), so it is the item embedding produced by the forward pass. -/

structure Item where
  genres : Fin 19 → ℚ

def getItemFeature (indexToItemId : Nat → Option Nat) (items : Nat → Option Item)
    (i : Nat) : Fin 19 → ℚ :=
  match (indexToItemId i).bind items with
  | some item => item.genres
  | none => fun _ => 0

/-- Embeds the item MLP of `DeepLearningTwoTowerModel`: concatenate the base
embedding row (width `D`) with the genre vector (width 19), apply the hidden
dense layer with ReLU and the linear output layer. -/
def deepItemForward {D H : Nat} (Wh : Fin (D + 19) → Fin H → ℚ) (bh : Fin H → ℚ)
    (Wo : Fin H → Fin D → ℚ) (bo : Fin D → ℚ) (baseEmb : Fin D → ℚ)
    (genres : Fin 19 → ℚ) : Fin D → ℚ :=
  fun j => (∑ k, max 0 ((∑ i, Fin.append baseEmb genres i * Wh i k) + bh k) * Wo k j) + bo j

/-! ### Epoch loop with the NaN check (TraditionalTwoTowerModel.train, part_001 19-45)

Per-batch losses are JS doubles that may be NaN; they are modelled as
`Option` rationals with `none` for NaN, and addition propagates NaN the way
IEEE addition does.  The epoch loop sums all batch losses of an epoch,
divides by the batch count to get the average (NaN exactly when some batch
loss was NaN, since the count is positive), reports it, and only then
checks `isNaN(avgLoss)` and breaks.  `processedSteps` records every
(epoch, batch) pair for which `trainBatch` was invoked; `fuel` is the
configured epoch count. -/

def nanAdd : Option ℚ → Option ℚ → Option ℚ
  | some a, some b => some (a + b)
  | _, _ => none

def epochTotalLoss (lossOf : Nat → Nat → Option ℚ) (numBatches epoch : Nat) : Option ℚ :=
  (List.range numBatches).foldl (fun acc b => nanAdd acc (lossOf epoch b)) (some 0)

/-- Whether `isNaN(avgLoss)` holds for the given epoch: the average is the
total divided by the positive batch count, so it is NaN exactly when the
accumulated total is. -/
def avgIsNaN (lossOf : Nat → Nat → Option ℚ) (numBatches epoch : Nat) : Bool :=
  (epochTotalLoss lossOf numBatches epoch).isNone

def processedSteps (lossOf : Nat → Nat → Option ℚ) (numBatches : Nat) :
    Nat → Nat → List (Nat × Nat)
  | 0, _ => []
  | fuel + 1, epoch =>
    ((List.range numBatches).map fun b => (epoch, b)) ++
      (if avgIsNaN lossOf numBatches epoch then []
       else processedSteps lossOf numBatches fuel (epoch + 1))

/-- Concrete loss table whose very first training step produces NaN. -/
def nanAtFirstStep : Nat → Nat → Option ℚ :=
  fun e b => if e = 0 ∧ b = 0 then none else some 1

/-! ### Loss functions over the reals

`exp` and `log` force this part of the embedding into `ℝ`. -/

/-- Embeds the logistic sigmoid `1 / (1 + Math.exp(-diff))` used by
`TraditionalTwoTowerModel.trainBatch` (and `tf.sigmoid`). -/
noncomputable def sigmoid (x : ℝ) : ℝ := 1 / (1 + Real.exp (-x))

/-- Embeds the per-sample BPR loss of `DeepLearningTwoTowerModel.trainBatch`
(part_001 222-224): `tf.neg(tf.log(tf.sigmoid(diff)))`. -/
noncomputable def bprPointLoss (diff : ℝ) : ℝ := -Real.log (sigmoid diff)

/-- Embeds the per-sample BPR loss of `TraditionalTwoTowerModel.trainBatch`
(part_001 70-73): `-Math.log(sigmoid + 1e-8)`. -/
noncomputable def bprSampleLoss (diff : ℝ) : ℝ :=
  -Real.log (sigmoid diff + 1 / 100000000)

/-- Batch BPR loss of the deep model: `tf.mean` of the per-sample losses. -/
noncomputable def bprBatchLoss (diffs : List ℝ) : ℝ :=
  (diffs.map bprPointLoss).sum / diffs.length

/-- Batch BPR loss of the traditional model: `totalLoss / userIndices.length`. -/
noncomputable def bprTradBatchLoss (diffs : List ℝ) : ℝ :=
  (diffs.map bprSampleLoss).sum / diffs.length

/-- Embeds `TwoTowerModel.computeLoss` (two-tower.js 92-107):
`tf.losses.softmaxCrossEntropy` of the `B × B` score matrix against the
diagonal one-hot labels, reduced by mean over the batch.  Row `i`
contributes `log (sum of exp of row i) - scores i i`. -/
noncomputable def softmaxCrossEntropy (B : Nat) (scores : Fin B → Fin B → ℝ) : ℝ :=
  (∑ i, (Real.log (∑ j, Real.exp (scores i j)) - scores i i)) / B

/-! ## Theorems -/

/-- C2 counterexample: the traditional sampler accepts a draw that the user
has already rated.  The user rated items 0 and 1 out of a catalog of size 3
(a strict subset), the current positive pair is item 0, and a draw of item 1
is returned even though 1 is in the rated set. -/
theorem sampleNegativeItem_counterexample :
    sampleNegativeItem [1] 0 = some 1 ∧ (1 : Nat) ∈ [0, 1] ∧
      ([0, 1] : List Nat).length < 3 := by
  refine ⟨rfl, by decide, by decide⟩

/-- C2 (amended): the rejection loop of `TraditionalTwoTowerModel.trainBatch`
only guarantees that the sampled negative differs from the positive item of
the current pair; it may coincide with other items the user rated. -/
theorem sampleNegativeItem_ne_positive (draws : List Nat) (positiveItemIdx n : Nat)
    (h : sampleNegativeItem draws positiveItemIdx = some n) : n ≠ positiveItemIdx := by
  have hp := List.find?_some h
  simpa using hp

/-- Witness for C2: a concrete run of the sampler. -/
theorem sampleNegativeItem_ne_positive_witness :
    sampleNegativeItem [5] 0 = some 5 ∧ (5 : Nat) ≠ 0 :=
  ⟨rfl, sampleNegativeItem_ne_positive [5] 0 5 rfl⟩

/-- C3: evaluation of `TwoTowerModel.score` at the failing input
u = v = [2, 0].  The code returns the raw dot product 4, outside [-1, 1],
instead of the cosine similarity 1 of the normalized vectors, so the
training/inference scoring of two-tower.js is not the claimed normalized
cosine. -/
theorem score_unnormalized_out_of_range :
    score [2, 0] [2, 0] = 4 ∧ ¬ score [2, 0] [2, 0] ≤ 1 := by
  have h4 : score [2, 0] [2, 0] = 4 := by
    simp [score]
    norm_num
  refine ⟨h4, by rw [h4]; norm_num⟩

/-- C9: with `useMLP = true`, inference calls `itemForward` without genre
features, so `getItemEmbeddings` returns exactly the gathered embedding
rows, the recommendation scores do not depend on the MLP weights at all,
and only the training path (genre features present) routes through the
MLP. -/
theorem itemForward_inference_bypasses_mlp {D H : Nat}
    (Wh Wh' : Fin 19 → Fin H → ℚ) (bh bh' : Fin H → ℚ)
    (Wo Wo' : Fin H → Fin D → ℚ) (bo bo' : Fin D → ℚ)
    (itemEmbedding : Nat → Fin D → ℚ) (itemIndices : List Nat)
    (userEmb : Fin D → ℚ) (gf : List (Fin 19 → ℚ)) :
    getItemEmbeddings true Wh bh Wo bo itemEmbedding itemIndices
        = itemIndices.map itemEmbedding ∧
    recommendationScores true Wh bh Wo bo itemEmbedding userEmb itemIndices
        = recommendationScores true Wh' bh' Wo' bo' itemEmbedding userEmb itemIndices ∧
    itemForward true Wh bh Wo bo itemEmbedding itemIndices (some gf)
        = List.zipWith (fun g i j => mlpForward Wh bh Wo bo g j + itemEmbedding i j)
            gf itemIndices :=
  ⟨rfl, rfl, rfl⟩

/-- C10: every interaction surviving the index-mapping filter of
`TwoTowerModel.train` has a defined user index and a defined item index,
and stems from an input interaction whose identifiers both mapped
successfully; unmapped interactions are silently dropped, never an error. -/
theorem train_keeps_only_mapped (userIndexMap itemIndexMap : Nat → Option Nat)
    (interactions : List Interaction) :
    ∀ it ∈ indexInteractions userIndexMap itemIndexMap interactions,
      (∃ u, it.userIndex = some u) ∧ (∃ i, it.itemIndex = some i) ∧
      ∃ src ∈ interactions,
        userIndexMap src.userId = it.userIndex ∧
        itemIndexMap src.itemId = it.itemIndex := by
  intro it hmem
  rw [indexInteractions, List.mem_filter] at hmem
  obtain ⟨hmap, hsome⟩ := hmem
  obtain ⟨src, hsrc, rfl⟩ := List.mem_map.mp hmap
  simp only [Bool.and_eq_true] at hsome
  exact ⟨Option.isSome_iff_exists.mp hsome.1, Option.isSome_iff_exists.mp hsome.2,
    src, hsrc, rfl, rfl⟩

/-- Witness for C10: one mapped and one unmapped interaction; the surviving
record satisfies the theorem. -/
theorem train_keeps_only_mapped_witness :
    (⟨some 0, some 3, 5⟩ : IndexedInteraction) ∈
        indexInteractions (fun u => if u = 7 then some 0 else none)
          (fun i => if i = 9 then some 3 else none)
          [⟨7, 9, 5⟩, ⟨1, 2, 3⟩] ∧
    ((∃ u, (some 0 : Option Nat) = some u) ∧ (∃ i, (some 3 : Option Nat) = some i) ∧
      ∃ src ∈ ([⟨7, 9, 5⟩, ⟨1, 2, 3⟩] : List Interaction),
        (if src.userId = 7 then some 0 else none) = some 0 ∧
        (if src.itemId = 9 then some 3 else none) = some 3) :=
  ⟨by decide,
   train_keeps_only_mapped (fun u => if u = 7 then some 0 else none)
     (fun i => if i = 9 then some 3 else none) [⟨7, 9, 5⟩, ⟨1, 2, 3⟩]
     ⟨some 0, some 3, 5⟩ (by decide)⟩

/-- C8: when the genre lookup for an item misses, app.js substitutes the
zero vector of length 19, and the deep item tower forward pass applied to
that substituted vector is the same well-defined embedding as with an
explicit zero genre vector (no failure). -/
theorem genre_fallback {D H : Nat} (indexToItemId : Nat → Option Nat)
    (items : Nat → Option Item) (i : Nat)
    (Wh : Fin (D + 19) → Fin H → ℚ) (bh : Fin H → ℚ)
    (Wo : Fin H → Fin D → ℚ) (bo : Fin D → ℚ) (baseEmb : Fin D → ℚ)
    (h : (indexToItemId i).bind items = none) :
    getItemFeature indexToItemId items i = (fun _ => 0) ∧
    deepItemForward Wh bh Wo bo baseEmb (getItemFeature indexToItemId items i)
      = deepItemForward Wh bh Wo bo baseEmb (fun _ => 0) := by
  have h1 : getItemFeature indexToItemId items i = fun _ => 0 := by
    simp only [getItemFeature, h]
  exact ⟨h1, by rw [h1]⟩

/-- Witness for C8: a lookup table with no genre data at all. -/
theorem genre_fallback_witness :
    (((fun _ => some 0 : Nat → Option Nat) 0).bind (fun _ => (none : Option Item))
        = none) ∧
    getItemFeature (fun _ => some 0) (fun _ => none) 0 = (fun _ => (0 : ℚ)) ∧
    deepItemForward (D := 1) (H := 1) (fun _ _ => 0) (fun _ => 0) (fun _ _ => 0)
        (fun _ => 0) (fun _ => 0) (getItemFeature (fun _ => some 0) (fun _ => none) 0)
      = deepItemForward (D := 1) (H := 1) (fun _ _ => 0) (fun _ => 0) (fun _ _ => 0)
        (fun _ => 0) (fun _ => 0) (fun _ => 0) :=
  ⟨rfl, genre_fallback (fun _ => some 0) (fun _ => none) 0
    (fun _ _ => 0) (fun _ => 0) (fun _ _ => 0) (fun _ => 0) (fun _ => 0) rfl⟩

theorem batches_nil {B : Nat} : batches B ([] : List α) = [] := by
  rw [batches]

theorem batches_ne_nil_eq {B : Nat} (hB : 1 ≤ B) (l : List α) (hl : l ≠ []) :
    batches B l = l.take B :: batches B (l.drop B) := by
  match l with
  | [] => exact absurd rfl hl
  | x :: xs =>
    rw [batches]
    rw [dif_neg (by omega)]

theorem batches_join {B : Nat} (hB : 1 ≤ B) (l : List α) : (batches B l).flatten = l := by
  have key : ∀ n (l : List α), l.length = n → (batches B l).flatten = l := by
    intro n
    induction n using Nat.strong_induction_on with
    | _ n ih =>
      intro l hlen
      match l with
      | [] => simp [batches_nil]
      | x :: xs =>
        rw [batches_ne_nil_eq hB _ (by simp), List.flatten_cons]
        rw [ih ((x :: xs).drop B).length (by simp at hlen ⊢; omega) _ rfl]
        exact List.take_append_drop B (x :: xs)
  exact key l.length l rfl

theorem batches_length {B : Nat} (hB : 1 ≤ B) (l : List α) (hl : l ≠ []) :
    (batches B l).length = (l.length + B - 1) / B := by
  have key : ∀ n (l : List α), l.length = n → l ≠ [] →
      (batches B l).length = (l.length + B - 1) / B := by
    intro n
    induction n using Nat.strong_induction_on with
    | _ n ih =>
      intro l hlen hl
      match l with
      | [] => exact absurd rfl hl
      | x :: xs =>
        rw [batches_ne_nil_eq hB _ (by simp), List.length_cons]
        by_cases hle : (x :: xs).length ≤ B
        · rw [List.drop_eq_nil_of_le hle, batches_nil]
          have h1 : 1 ≤ (x :: xs).length := by simp
          have hdiv : ((x :: xs).length + B - 1) / B = 1 :=
            Nat.div_eq_of_lt_le (by omega) (by omega)
          rw [hdiv]
          simp
        · have hlt : B < (x :: xs).length := by omega
          have hrec :
              (batches B ((x :: xs).drop B)).length
                = (((x :: xs).drop B).length + B - 1) / B := by
            refine ih ((x :: xs).drop B).length ?_ _ rfl ?_
            · simp at hlen ⊢; omega
            · intro hcon
              have hlen2 : ((x :: xs).drop B).length = (x :: xs).length - B := by simp
              rw [hcon] at hlen2
              simp only [List.length_nil, List.length_cons] at hlen2
              simp only [List.length_cons] at hlt
              omega
          rw [hrec, List.length_drop]
          have h2 : (x :: xs).length - B + B - 1 = ((x :: xs).length - 1) := by omega
          have h3 : (x :: xs).length + B - 1 = ((x :: xs).length - 1) + B := by
            have : (x :: xs).length ≥ 1 := by simp
            omega
          rw [h2, h3, Nat.add_div_right _ (by omega)]
  exact key l.length l rfl hl

/-- C6: the epoch loop slices the interaction list into contiguous batches
of size `batchSize`; exactly `ceil(n / B)` batches are processed per epoch,
their concatenation is the whole (shuffled) list, so the final smaller
batch is processed rather than dropped, and when `B > n` the epoch
processes exactly one batch, namely the whole list. -/
theorem train_batching_spec {B : Nat} (l : List α) (hB : 1 ≤ B) (hl : l ≠ []) :
    (batches B l).length = (l.length + B - 1) / B ∧
    (batches B l).flatten = l ∧
    (l.length < B → batches B l = [l]) := by
  refine ⟨batches_length hB l hl, batches_join hB l, fun hlt => ?_⟩
  rw [batches_ne_nil_eq hB l hl, List.take_of_length_le (by omega),
    List.drop_eq_nil_of_le (by omega), batches_nil]

/-- Witness for C6: two interactions, batch size five — one batch holding
the whole list. -/
theorem train_batching_spec_witness :
    (batches 5 ([0, 1] : List Nat)).length = (2 + 5 - 1) / 5 ∧
    batches 5 ([0, 1] : List Nat) = [[0, 1]] :=
  ⟨(train_batching_spec [0, 1] (by decide) (by decide)).1,
   (train_batching_spec [0, 1] (by decide) (by decide)).2.2 (by decide)⟩

theorem length_filter_rated (scoredItems : List ScoredItem) (ratedItems : List Nat)
    (hnodup : (scoredItems.map ScoredItem.itemId).Nodup) (hr : ratedItems.Nodup)
    (hsub : ∀ a ∈ ratedItems, a ∈ scoredItems.map ScoredItem.itemId) :
    (scoredItems.filter fun s => decide (s.itemId ∈ ratedItems)).length
      = ratedItems.length := by
  have hmapfilter :
      (scoredItems.map ScoredItem.itemId).filter (fun a => decide (a ∈ ratedItems))
        = (scoredItems.filter fun s => decide (s.itemId ∈ ratedItems)).map
            ScoredItem.itemId :=
    List.filter_map ScoredItem.itemId scoredItems
  have hA : ((scoredItems.map ScoredItem.itemId).filter
      (fun a => decide (a ∈ ratedItems))).length = ratedItems.length := by
    apply Nat.le_antisymm
    · apply List.Subperm.length_le
      apply List.Nodup.subperm (hnodup.filter _)
      intro a ha
      exact of_decide_eq_true (List.mem_filter.mp ha).2
    · apply List.Subperm.length_le
      apply List.Nodup.subperm hr
      intro a ha
      exact List.mem_filter.mpr ⟨hsub a ha, decide_eq_true ha⟩
  calc (scoredItems.filter fun s => decide (s.itemId ∈ ratedItems)).length
      = ((scoredItems.filter fun s => decide (s.itemId ∈ ratedItems)).map
          ScoredItem.itemId).length := (List.length_map _ _).symm
    _ = ratedItems.length := by rw [← hmapfilter]; exact hA

theorem length_filter_unrated (scoredItems : List ScoredItem) (ratedItems : List Nat)
    (hnodup : (scoredItems.map ScoredItem.itemId).Nodup) (hr : ratedItems.Nodup)
    (hsub : ∀ a ∈ ratedItems, a ∈ scoredItems.map ScoredItem.itemId) :
    (scoredItems.filter fun s => !(decide (s.itemId ∈ ratedItems))).length
      = scoredItems.length - ratedItems.length := by
  have hsplit := @List.length_eq_length_filter_add ScoredItem scoredItems
    (fun s => decide (s.itemId ∈ ratedItems))
  have hin := length_filter_rated scoredItems ratedItems hnodup hr hsub
  have hbeta :
      (scoredItems.filter fun s => !(fun s => decide (s.itemId ∈ ratedItems)) s)
        = scoredItems.filter fun s => !(decide (s.itemId ∈ ratedItems)) := rfl
  rw [hbeta] at hsplit
  omega

/-- C1: `getRecommendations` returns no rated item, at most
`min topK (catalogSize - ratedCount)` items, and the result is sorted by
non-increasing score.  Hypotheses: catalog entries carry pairwise distinct
item identifiers, and the rated set is a duplicate-free subset of the
catalog. -/
theorem getRecommendations_spec (scoredItems : List ScoredItem) (ratedItems : List Nat)
    (topK : Nat) (hnodup : (scoredItems.map ScoredItem.itemId).Nodup)
    (hr : ratedItems.Nodup)
    (hsub : ∀ a ∈ ratedItems, a ∈ scoredItems.map ScoredItem.itemId) :
    (∀ s ∈ getRecommendations scoredItems ratedItems topK, s.itemId ∉ ratedItems) ∧
    (getRecommendations scoredItems ratedItems topK).length
        ≤ min topK (scoredItems.length - ratedItems.length) ∧
    List.Sorted scoreDesc (getRecommendations scoredItems ratedItems topK) := by
  refine ⟨?_, ?_, ?_⟩
  · intro s hs
    have hs1 : s ∈ (scoredItems.filter
        fun s => !(decide (s.itemId ∈ ratedItems))).insertionSort scoreDesc :=
      List.take_subset _ _ hs
    rw [List.mem_insertionSort] at hs1
    have hdec := (List.mem_filter.mp hs1).2
    simpa using hdec
  · rw [getRecommendations, List.length_take,
      (List.perm_insertionSort scoreDesc _).length_eq,
      length_filter_unrated scoredItems ratedItems hnodup hr hsub]
  · exact List.Pairwise.sublist (List.take_sublist _ _)
      (List.sorted_insertionSort scoreDesc _)

/-- Witness for C1: a catalog of three items where the user rated item 2
and ten recommendations are requested (the spec scenario of section 8). -/
theorem getRecommendations_spec_witness :
    (∀ s ∈ getRecommendations [⟨0, 1⟩, ⟨1, 2⟩, ⟨2, 3⟩] [2] 10, s.itemId ∉ [2]) ∧
    (getRecommendations [⟨0, 1⟩, ⟨1, 2⟩, ⟨2, 3⟩] [2] 10).length ≤ min 10 (3 - 1) ∧
    List.Sorted scoreDesc (getRecommendations [⟨0, 1⟩, ⟨1, 2⟩, ⟨2, 3⟩] [2] 10) :=
  getRecommendations_spec [⟨0, 1⟩, ⟨1, 2⟩, ⟨2, 3⟩] [2] 10
    (by decide) (by decide) (by decide)

/-- C4: the in-batch softmax loss of `computeLoss` is non-negative for any
batch size `B ≥ 1`, and a batch of size one yields exactly zero — it is
processed without any division error. -/
theorem computeLoss_nonneg (B : Nat) (scores : Fin B → Fin B → ℝ) (_hB : 1 ≤ B) :
    0 ≤ softmaxCrossEntropy B scores ∧
    ∀ t : Fin 1 → Fin 1 → ℝ, softmaxCrossEntropy 1 t = 0 := by
  constructor
  · apply div_nonneg _ (Nat.cast_nonneg B)
    apply Finset.sum_nonneg
    intro i _
    have h1 : Real.exp (scores i i) ≤ ∑ j, Real.exp (scores i j) :=
      Finset.single_le_sum (fun j _ => (Real.exp_pos (scores i j)).le)
        (Finset.mem_univ i)
    have h2 : scores i i ≤ Real.log (∑ j, Real.exp (scores i j)) := by
      calc scores i i = Real.log (Real.exp (scores i i)) := (Real.log_exp _).symm
        _ ≤ Real.log (∑ j, Real.exp (scores i j)) :=
            Real.log_le_log (Real.exp_pos _) h1
    linarith
  · intro t
    simp [softmaxCrossEntropy, Real.log_exp]

/-- Witness for C4: the trivial batch of size one with zero scores. -/
theorem computeLoss_nonneg_witness :
    1 ≤ 1 ∧ 0 ≤ softmaxCrossEntropy 1 (fun _ _ => 0) :=
  ⟨le_refl 1, (computeLoss_nonneg 1 (fun _ _ => 0) (le_refl 1)).1⟩

theorem sigmoid_pos (x : ℝ) : 0 < sigmoid x := by
  unfold sigmoid
  positivity

theorem sigmoid_lt_sigmoid {x y : ℝ} (h : x < y) : sigmoid x < sigmoid y := by
  unfold sigmoid
  apply one_div_lt_one_div_of_lt
  · positivity
  · have hexp : Real.exp (-y) < Real.exp (-x) := Real.exp_lt_exp.mpr (by linarith)
    linarith

theorem sigmoid_zero_eq : sigmoid 0 = 1 / 2 := by
  unfold sigmoid
  rw [neg_zero, Real.exp_zero]
  norm_num

theorem bprPointLoss_zero : bprPointLoss 0 = Real.log 2 := by
  unfold bprPointLoss
  rw [sigmoid_zero_eq, show (1 : ℝ) / 2 = 2⁻¹ by norm_num, Real.log_inv, neg_neg]

theorem bprSampleLoss_zero_lt : bprSampleLoss 0 < Real.log 2 := by
  unfold bprSampleLoss
  rw [sigmoid_zero_eq]
  have h1 : Real.log (1 / 2) < Real.log (1 / 2 + 1 / 100000000) :=
    Real.log_lt_log (by norm_num) (by norm_num)
  have h2 : Real.log ((1 : ℝ) / 2) = -Real.log 2 := by
    rw [show (1 : ℝ) / 2 = 2⁻¹ by norm_num, Real.log_inv]
  linarith

/-- C5 counterexample: the traditional model computes
`-Math.log(sigmoid + 1e-8)`, so on the one-element batch with
`diff = 0` its loss is strictly below `log 2`, while the claimed formula
`-log(sigmoid(diff))` equals `log 2` there — the two disagree at this
concrete input. -/
theorem bpr_trad_loss_counterexample :
    bprTradBatchLoss [0] < Real.log 2 ∧ bprPointLoss 0 = Real.log 2 := by
  constructor
  · have h : bprTradBatchLoss [0] = bprSampleLoss 0 := by
      simp [bprTradBatchLoss]
    rw [h]
    exact bprSampleLoss_zero_lt
  · exact bprPointLoss_zero

/-- C5 (amended): the deep model loss is the mean of `-log(sigmoid(diff))`,
which is strictly decreasing in `diff` and equals `log 2` at zero; the
traditional model adds `1e-8` inside the logarithm, is likewise strictly
decreasing, but sits strictly below `log 2` at `diff = 0`. -/
theorem bpr_loss_amended :
    (∀ x y : ℝ, x < y → bprPointLoss y < bprPointLoss x) ∧
    bprPointLoss 0 = Real.log 2 ∧
    (∀ x y : ℝ, x < y → bprSampleLoss y < bprSampleLoss x) ∧
    bprSampleLoss 0 < Real.log 2 := by
  refine ⟨?_, bprPointLoss_zero, ?_, bprSampleLoss_zero_lt⟩
  · intro x y h
    unfold bprPointLoss
    have hlog := Real.log_lt_log (sigmoid_pos x) (sigmoid_lt_sigmoid h)
    linarith
  · intro x y h
    unfold bprSampleLoss
    have h0 : (0 : ℝ) < sigmoid x + 1 / 100000000 := by
      have := sigmoid_pos x
      linarith
    have hmono : sigmoid x + 1 / 100000000 < sigmoid y + 1 / 100000000 := by
      have := sigmoid_lt_sigmoid h
      linarith
    have hlog := Real.log_lt_log h0 hmono
    linarith

/-- Witness for C5: both per-sample losses strictly decrease from 0 to 1. -/
theorem bpr_loss_amended_witness :
    (0 : ℝ) < 1 ∧ bprPointLoss 1 < bprPointLoss 0 ∧
      bprSampleLoss 1 < bprSampleLoss 0 :=
  ⟨by norm_num, bpr_loss_amended.1 0 1 (by norm_num),
   bpr_loss_amended.2.2.1 0 1 (by norm_num)⟩

/-- C7 counterexample: the first training step of epoch 0 produces a NaN
loss, yet step (0, 1) is still processed, because
`TraditionalTwoTowerModel.train` only checks `isNaN(avgLoss)` after the
whole epoch has run — training does not abort at the offending step. -/
theorem train_nan_counterexample :
    nanAtFirstStep 0 0 = none ∧
      (0, 1) ∈ processedSteps nanAtFirstStep 2 2 0 := by
  constructor
  · rfl
  · decide

/-- C7 (amended): the NaN check works at epoch granularity — a batch of
epoch `e` is only processed if every earlier epoch had a non-NaN average
loss (so no new epoch starts after a NaN epoch), while every batch of the
current epoch is always processed, NaN or not. -/
theorem train_nan_epoch_granularity (lossOf : Nat → Nat → Option ℚ)
    (numBatches : Nat) :
    (∀ fuel e0 e b, (e, b) ∈ processedSteps lossOf numBatches fuel e0 →
        ∀ f, e0 ≤ f → f < e → avgIsNaN lossOf numBatches f = false) ∧
    (∀ fuel e0 b, b < numBatches →
        (e0, b) ∈ processedSteps lossOf numBatches (fuel + 1) e0) := by
  constructor
  · intro fuel
    induction fuel with
    | zero =>
      intro e0 e b h
      simp [processedSteps] at h
    | succ n ih =>
      intro e0 e b h f h1 h2
      rw [processedSteps] at h
      rcases List.mem_append.mp h with h | h
      · obtain ⟨b', _, heq⟩ := List.mem_map.mp h
        cases heq
        omega
      · cases hnan : avgIsNaN lossOf numBatches e0 with
        | true => rw [hnan] at h; simp at h
        | false =>
          rw [hnan] at h
          simp only [if_neg Bool.false_ne_true] at h
          rcases Nat.eq_or_lt_of_le h1 with heq | hlt
          · exact heq ▸ hnan
          · exact ih (e0 + 1) e b h f (by omega) h2
  · intro fuel e0 b hb
    rw [processedSteps]
    apply List.mem_append_left
    exact List.mem_map.mpr ⟨b, List.mem_range.mpr hb, rfl⟩

/-- Witness for C7: with all losses finite, a batch of epoch 1 is processed
and epoch 0 indeed had a non-NaN average. -/
theorem train_nan_epoch_granularity_witness :
    ((1, 0) ∈ processedSteps (fun _ _ => some 1) 1 2 0) ∧
    avgIsNaN (fun _ _ => some 1) 1 0 = false :=
  ⟨by decide,
   (train_nan_epoch_granularity (fun _ _ => some 1) 1).1 2 0 1 0 (by decide) 0
     (by decide) (by decide)⟩

end RecSys
